import Mathlib

/-!
Verification of the Raahib routing pipeline and knowledge-base search.

The Python sources (raahib/kb.py, raahib/safety.py, raahib/state.py,
raahib/commands.py, raahib/router.py, core/llm.py, core/modes.py,
core/config.py) are shallowly embedded below.  Python strings are modeled
as Lean `String` (a wrapper around `List Char`), floats as rationals,
dictionaries as association lists with later-binding-wins lookup, and
fallible operations (file writes, interactive input) through explicit
oracles in an environment record, with exceptions as `Except`.
-/

namespace Raahib

/-! ## Python string primitives, modeled on character lists -/

/-- Character-wise lower-casing of a character list (Python `str.lower`
restricted to ASCII, which covers every keyword and field this code
compares). -/
def lowerL (l : List Char) : List Char := l.map Char.toLower

/-- Python `str.strip`: drop leading and trailing whitespace. -/
def trimL (l : List Char) : List Char :=
  ((l.dropWhile Char.isWhitespace).reverse.dropWhile Char.isWhitespace).reverse

/-- Accumulator-based whitespace split; `cur` holds the current token
reversed. -/
def splitWsAux : List Char → List Char → List (List Char)
  | [], cur => if cur.isEmpty then [] else [cur.reverse]
  | c :: cs, cur =>
    if c.isWhitespace then
      if cur.isEmpty then splitWsAux cs [] else cur.reverse :: splitWsAux cs []
    else splitWsAux cs (c :: cur)

/-- Python `str.split()` with no argument: split on whitespace runs,
producing no empty tokens. -/
def splitWs (l : List Char) : List (List Char) := splitWsAux l []

/-- Does `l` start with `pat`? -/
def startsWithL : List Char → List Char → Bool
  | _, [] => true
  | [], _ :: _ => false
  | c :: cs, p :: ps => c == p && startsWithL cs ps

/-- Python substring containment `pat in l` on character lists. -/
def subL (pat : List Char) : List Char → Bool
  | [] => pat.isEmpty
  | c :: cs => startsWithL (c :: cs) pat || subL pat cs

/-- Python `needle in hay` on strings. -/
def pyIn (needle hay : String) : Bool := subL needle.data hay.data

/-- Python `str.lower` (ASCII model). -/
def pyLower (s : String) : String := String.mk (lowerL s.data)

/-- Python `str.strip()`. -/
def pyStrip (s : String) : String := String.mk (trimL s.data)

/-- Python `s.split()` returning strings. -/
def pySplitWs (s : String) : List String := (splitWs s.data).map String.mk

/-- Python `s.startswith(pre)`. -/
def pyStartsWith (s pre : String) : Bool := startsWithL s.data pre.data

/-! ## Knowledge cards and search (raahib/kb.py) -/

/-- `KnowledgeCard` from kb.py: optional columns are `Option String`. -/
structure KnowledgeCard where
  id : Nat
  type : String
  title : String
  arabic : Option String
  translation_en : Option String
  explanation : Option String
  source_name : String
  reference : String
  auth_grade : Option String
  tags : Option String
  created_at : String
deriving DecidableEq, Repr

/-- `KnowledgeHit`: a card paired with its normalized score. -/
structure KnowledgeHit where
  card : KnowledgeCard
  score : ℚ
deriving DecidableEq, Repr

/-- `(field or "")` for an optional column. -/
def orEmpty (o : Option String) : String := o.getD ""

/-- The query terms: `[t.lower() for t in query.split() if t.strip()]`.
`str.split()` never yields a token without non-whitespace characters, so
the comprehension's filter keeps everything it produces. -/
def queryTerms (query : String) : List String := (pySplitWs query).map pyLower

/-- One term's contribution to a card's raw score: the seven weighted
case-insensitive substring tests from kb.py lines 145-159, accumulated in
source order. -/
def termScore (card : KnowledgeCard) (term : String) : ℚ :=
  (((((((0
    + (if pyIn term (pyLower card.title) then 4 else 0))
    + (if pyIn term (pyLower (orEmpty card.tags)) then 3 else 0))
    + (if pyIn term (pyLower (orEmpty card.arabic)) then 2 else 0))
    + (if pyIn term (pyLower (orEmpty card.translation_en)) then 2 else 0))
    + (if pyIn term (pyLower (orEmpty card.explanation)) then 1 else 0))
    + (if pyIn term (pyLower card.source_name) then 1 else 0))
    + (if pyIn term (pyLower card.reference) then 1 else 0))

/-- `max_per_term = sum(weights.values())`. -/
def maxPerTerm : ℚ := 4 + 3 + 2 + 2 + 1 + 1 + 1

/-- Raw accumulated score over all terms (the `for term in terms` loop). -/
def rawScore (terms : List String) (card : KnowledgeCard) : ℚ :=
  terms.foldl (fun s t => s + termScore card t) 0

/-- The full query string used by the title boost:
`query.lower().strip()`. -/
def fullQuery (query : String) : String := pyStrip (pyLower query)

/-- Normalized, clamped, title-boosted score of a card
(kb.py lines 160-163). -/
def cardScore (query : String) (card : KnowledgeCard) : ℚ :=
  let terms := queryTerms query
  let normalized := min 1 (rawScore terms card / (maxPerTerm * terms.length))
  let fq := fullQuery query
  if fq ≠ "" ∧ pyIn fq (pyLower card.title) then max normalized (9/10)
  else normalized

/-- The `hits` list accumulated in retrieval order: cards with positive
score paired with that score (kb.py lines 141-165). -/
def scoredHits (cards : List KnowledgeCard) (query : String) : List KnowledgeHit :=
  cards.foldl
    (fun hits card =>
      if 0 < cardScore query card then hits ++ [⟨card, cardScore query card⟩] else hits)
    []

/-- Stable insertion into a descending-by-score list: the new hit goes
after every already-placed hit whose score is not smaller. -/
def insertHit (h : KnowledgeHit) : List KnowledgeHit → List KnowledgeHit
  | [] => [h]
  | x :: xs => if x.score < h.score then h :: x :: xs else x :: insertHit h xs

/-- Stable descending sort (`hits.sort(key=score, reverse=True)`); Python
list sort is stable, and left-to-right stable insertion realizes the same
permutation. -/
def sortHits (hits : List KnowledgeHit) : List KnowledgeHit :=
  hits.foldl (fun acc h => insertHit h acc) []

/-- `KnowledgeBase.search` (kb.py lines 122-168), over the stored cards in
retrieval order; the `limit` is the Python `limit` argument. -/
def search (cards : List KnowledgeCard) (query : String) (limit : Nat) :
    List KnowledgeHit :=
  if queryTerms query = [] then []
  else (sortHits (scoredHits cards query)).take limit

/-! ## Spec-worded search (for refinement of claim C1)

The spec describes the same search in different terms: a per-token sum of
weighted indicator values over a seven-field table, divided by
(14 × token count) and clamped, then filtered to positive scores and
stably sorted by descending score with ties in retrieval order.  Two
variants are written from the spec's words: the claim's (no title
boost) and the amended one (with the boost the code applies). -/

/-- The seven (field text, weight) pairs, in the spec's order. -/
def weightTable (c : KnowledgeCard) : List (String × ℚ) :=
  [(c.title, 4), (orEmpty c.tags, 3), (orEmpty c.arabic, 2),
   (orEmpty c.translation_en, 2), (orEmpty c.explanation, 1),
   (c.source_name, 1), (c.reference, 1)]

/-- Spec wording: the sum of the weights of the fields containing the
token as a case-insensitive substring. -/
def specTermScore (c : KnowledgeCard) (t : String) : ℚ :=
  ((weightTable c).map (fun p => if pyIn t (pyLower p.1) then p.2 else 0)).sum

/-- Spec wording: raw score summed over tokens, divided by
(14 × token count), clamped to at most 1. -/
def specBaseScore (q : String) (c : KnowledgeCard) : ℚ :=
  min 1 (((queryTerms q).map (specTermScore c)).sum / (14 * (queryTerms q).length))

/-- The amended score: the base score raised to at least 9/10 when the
non-empty trimmed lower-cased query occurs in the title. -/
def specBoostedScore (q : String) (c : KnowledgeCard) : ℚ :=
  if fullQuery q ≠ "" ∧ pyIn (fullQuery q) (pyLower c.title) then
    max (specBaseScore q c) (9/10)
  else specBaseScore q c

/-- Spec wording: exactly the cards whose score is positive, in retrieval
order, paired with their scores. -/
def posHits (score : KnowledgeCard → ℚ) (cards : List KnowledgeCard) :
    List KnowledgeHit :=
  cards.filterMap (fun c => if 0 < score c then some ⟨c, score c⟩ else none)

/-- Insertion for the index-tagged ordering: descending score, and on
equal scores ascending original position. -/
def insertIdx (p : Nat × KnowledgeHit) :
    List (Nat × KnowledgeHit) → List (Nat × KnowledgeHit)
  | [] => [p]
  | x :: xs =>
    if x.2.score < p.2.score ∨ (x.2.score = p.2.score ∧ p.1 < x.1) then
      p :: x :: xs
    else x :: insertIdx p xs

/-- Sort of index-tagged hits by (score descending, position ascending). -/
def sortIdx (l : List (Nat × KnowledgeHit)) : List (Nat × KnowledgeHit) :=
  l.foldl (fun acc p => insertIdx p acc) []

/-- Search as the spec words it, parameterized by the score function:
positive-score cards, sorted descending with retrieval order breaking
ties, truncated to `limit`; no tokens means an empty result. -/
def specSearchWith (score : String → KnowledgeCard → ℚ)
    (cards : List KnowledgeCard) (query : String) (limit : Nat) :
    List KnowledgeHit :=
  if queryTerms query = [] then []
  else ((sortIdx (posHits (score query) cards).enum).map Prod.snd).take limit

/-- Claim C1's description: no title boost in the score. -/
def specSearchClaimed : List KnowledgeCard → String → Nat → List KnowledgeHit :=
  specSearchWith specBaseScore

/-- The amended description: the boosted score throughout. -/
def specSearchAmended : List KnowledgeCard → String → Nat → List KnowledgeHit :=
  specSearchWith specBoostedScore

/-! ## Equivalence of the code's search with the spec-worded search -/

lemma foldl_add_shift (f : String → ℚ) :
    ∀ (l : List String) (a : ℚ),
      l.foldl (fun s t => s + f t) a = a + (l.map f).sum
  | [], a => by simp
  | t :: ts, a => by
    simp [foldl_add_shift f ts (a + f t), add_assoc]

lemma termScore_eq_spec (c : KnowledgeCard) (t : String) :
    termScore c t = specTermScore c t := by
  simp only [termScore, specTermScore, weightTable, List.map_cons, List.map_nil,
    List.sum_cons, List.sum_nil]
  ring

lemma rawScore_eq_spec (terms : List String) (c : KnowledgeCard) :
    rawScore terms c = (terms.map (specTermScore c)).sum := by
  unfold rawScore
  rw [foldl_add_shift, zero_add]
  congr 1
  exact List.map_congr_left fun t _ => termScore_eq_spec c t

lemma maxPerTerm_eq : maxPerTerm = 14 := by norm_num [maxPerTerm]

lemma cardScore_eq_spec (q : String) (c : KnowledgeCard) :
    cardScore q c = specBoostedScore q c := by
  simp only [cardScore, specBoostedScore, specBaseScore, rawScore_eq_spec,
    maxPerTerm_eq]

lemma foldl_pos_filterMap (g : KnowledgeCard → ℚ) :
    ∀ (cards : List KnowledgeCard) (acc : List KnowledgeHit),
      cards.foldl
          (fun hits c => if 0 < g c then hits ++ [⟨c, g c⟩] else hits) acc
        = acc ++ cards.filterMap
            (fun c => if 0 < g c then some ⟨c, g c⟩ else none)
  | [], acc => by simp
  | c :: cs, acc => by
    by_cases hc : 0 < g c
    · simp [List.foldl_cons, hc, foldl_pos_filterMap g cs]
    · simp [List.foldl_cons, hc, foldl_pos_filterMap g cs]

lemma scoredHits_eq_posHits (cards : List KnowledgeCard) (q : String) :
    scoredHits cards q = posHits (specBoostedScore q) cards := by
  unfold scoredHits posHits
  simp only [cardScore_eq_spec]
  simpa using foldl_pos_filterMap (specBoostedScore q) cards []

lemma insertIdx_map_snd (i : Nat) (h : KnowledgeHit) :
    ∀ (acc : List (Nat × KnowledgeHit)), (∀ x ∈ acc, x.1 < i) →
      (insertIdx (i, h) acc).map Prod.snd = insertHit h (acc.map Prod.snd)
  | [], _ => rfl
  | x :: xs, hall => by
    have hx : x.1 < i := hall x (by simp)
    by_cases hc : x.2.score < h.score
    · have : x.2.score < (i, h).2.score ∨
          (x.2.score = (i, h).2.score ∧ (i, h).1 < x.1) := Or.inl hc
      simp only [insertIdx, if_pos this, insertHit, if_pos hc, List.map_cons]
    · have hnot : ¬(x.2.score < (i, h).2.score ∨
          (x.2.score = (i, h).2.score ∧ (i, h).1 < x.1)) := by
        rintro (h1 | ⟨h1, h2⟩)
        · exact hc h1
        · exact absurd h2 (by omega)
      simp only [insertIdx, if_neg hnot, insertHit, if_neg hc, List.map_cons]
      rw [insertIdx_map_snd i h xs (fun y hy => hall y (List.mem_cons_of_mem _ hy))]

lemma mem_insertIdx {q p : Nat × KnowledgeHit} :
    ∀ {acc : List (Nat × KnowledgeHit)},
      q ∈ insertIdx p acc → q = p ∨ q ∈ acc := by
  intro acc
  induction acc with
  | nil => simp [insertIdx]
  | cons x xs ih =>
    simp only [insertIdx]
    split
    · intro hq
      rcases List.mem_cons.mp hq with h | h
      · exact Or.inl h
      · exact Or.inr h
    · intro hq
      rcases List.mem_cons.mp hq with h | h
      · exact Or.inr (by simp [h])
      · rcases ih h with h' | h'
        · exact Or.inl h'
        · exact Or.inr (List.mem_cons_of_mem _ h')

lemma foldl_insertIdx_enumFrom :
    ∀ (l : List KnowledgeHit) (i0 : Nat) (accI : List (Nat × KnowledgeHit)),
      (∀ x ∈ accI, x.1 < i0) →
      (List.foldl (fun acc p => insertIdx p acc) accI (l.enumFrom i0)).map Prod.snd
        = List.foldl (fun acc h => insertHit h acc) (accI.map Prod.snd) l
  | [], _, _, _ => rfl
  | h :: t, i0, accI, hall => by
    simp only [List.enumFrom, List.foldl_cons]
    rw [foldl_insertIdx_enumFrom t (i0 + 1) (insertIdx (i0, h) accI)
      (fun x hx => by
        rcases mem_insertIdx hx with h' | h'
        · simp [h']
        · exact Nat.lt_succ_of_lt (hall x h'))]
    rw [insertIdx_map_snd i0 h accI hall]

lemma sortHits_eq_sortIdx (l : List KnowledgeHit) :
    sortHits l = (sortIdx l.enum).map Prod.snd := by
  unfold sortHits sortIdx
  exact (foldl_insertIdx_enumFrom l 0 [] (by simp)).symm

/-! ## Concrete cards used by counterexamples -/

/-- A card whose title is exactly the query, with no other field hits:
weighted-field score 4/14, but the title boost lifts it to 9/10. -/
def cardEase : KnowledgeCard :=
  { id := 1, type := "t", title := "ease", arabic := none, translation_en := none,
    explanation := none, source_name := "x", reference := "y", auth_grade := none,
    tags := none, created_at := "c" }

/-- A card hitting every field except the title: weighted-field score
10/14 = 5/7, never boosted. -/
def cardCalm : KnowledgeCard :=
  { id := 2, type := "t", title := "calm", arabic := some "ease",
    translation_en := some "ease", explanation := some "ease", source_name := "ease",
    reference := "ease", auth_grade := none, tags := some "ease", created_at := "c" }

lemma termScore_cardEase : termScore cardEase "ease" = 4 := by
  simp only [termScore]
  norm_num [show pyIn "ease" (pyLower cardEase.title) = true from rfl,
    show pyIn "ease" (pyLower (orEmpty cardEase.tags)) = false from rfl,
    show pyIn "ease" (pyLower (orEmpty cardEase.arabic)) = false from rfl,
    show pyIn "ease" (pyLower (orEmpty cardEase.translation_en)) = false from rfl,
    show pyIn "ease" (pyLower (orEmpty cardEase.explanation)) = false from rfl,
    show pyIn "ease" (pyLower cardEase.source_name) = false from rfl,
    show pyIn "ease" (pyLower cardEase.reference) = false from rfl]

lemma termScore_cardCalm : termScore cardCalm "ease" = 10 := by
  simp only [termScore]
  norm_num [show pyIn "ease" (pyLower cardCalm.title) = false from rfl,
    show pyIn "ease" (pyLower (orEmpty cardCalm.tags)) = true from rfl,
    show pyIn "ease" (pyLower (orEmpty cardCalm.arabic)) = true from rfl,
    show pyIn "ease" (pyLower (orEmpty cardCalm.translation_en)) = true from rfl,
    show pyIn "ease" (pyLower (orEmpty cardCalm.explanation)) = true from rfl,
    show pyIn "ease" (pyLower cardCalm.source_name) = true from rfl,
    show pyIn "ease" (pyLower cardCalm.reference) = true from rfl]

lemma cardScore_cardEase : cardScore "ease" cardEase = 9/10 := by
  simp only [cardScore, show queryTerms "ease" = ["ease"] from rfl, rawScore,
    List.foldl_cons, List.foldl_nil, termScore_cardEase,
    show fullQuery "ease" = "ease" from rfl,
    show pyIn "ease" (pyLower cardEase.title) = true from rfl,
    show (("ease" : String) = "") = False from by decide]
  norm_num [maxPerTerm, show ¬("ease" : String) = "" from by decide]

lemma cardScore_cardCalm : cardScore "ease" cardCalm = 5/7 := by
  simp only [cardScore, show queryTerms "ease" = ["ease"] from rfl, rawScore,
    List.foldl_cons, List.foldl_nil, termScore_cardCalm,
    show fullQuery "ease" = "ease" from rfl,
    show pyIn "ease" (pyLower cardCalm.title) = false from rfl]
  norm_num [maxPerTerm]

lemma search_eval_ease :
    search [cardEase, cardCalm] "ease" 5 =
      [⟨cardEase, 9/10⟩, ⟨cardCalm, 5/7⟩] := by
  unfold search
  rw [if_neg (by decide)]
  have hsc : scoredHits [cardEase, cardCalm] "ease" =
      [⟨cardEase, 9/10⟩, ⟨cardCalm, 5/7⟩] := by
    simp only [scoredHits, List.foldl_cons, List.foldl_nil, cardScore_cardEase,
      cardScore_cardCalm]
    norm_num
  rw [hsc]
  simp only [sortHits, List.foldl_cons, List.foldl_nil, insertHit]
  norm_num

lemma specBaseScore_cardEase : specBaseScore "ease" cardEase = 2/7 := by
  simp only [specBaseScore, show queryTerms "ease" = ["ease"] from rfl,
    specTermScore, weightTable, List.map_cons, List.map_nil, List.sum_cons,
    List.sum_nil, show pyIn "ease" (pyLower cardEase.title) = true from rfl,
    show pyIn "ease" (pyLower (orEmpty cardEase.tags)) = false from rfl,
    show pyIn "ease" (pyLower (orEmpty cardEase.arabic)) = false from rfl,
    show pyIn "ease" (pyLower (orEmpty cardEase.translation_en)) = false from rfl,
    show pyIn "ease" (pyLower (orEmpty cardEase.explanation)) = false from rfl,
    show pyIn "ease" (pyLower cardEase.source_name) = false from rfl,
    show pyIn "ease" (pyLower cardEase.reference) = false from rfl]
  norm_num

lemma specBaseScore_cardCalm : specBaseScore "ease" cardCalm = 5/7 := by
  simp only [specBaseScore, show queryTerms "ease" = ["ease"] from rfl,
    specTermScore, weightTable, List.map_cons, List.map_nil, List.sum_cons,
    List.sum_nil, show pyIn "ease" (pyLower cardCalm.title) = false from rfl,
    show pyIn "ease" (pyLower (orEmpty cardCalm.tags)) = true from rfl,
    show pyIn "ease" (pyLower (orEmpty cardCalm.arabic)) = true from rfl,
    show pyIn "ease" (pyLower (orEmpty cardCalm.translation_en)) = true from rfl,
    show pyIn "ease" (pyLower (orEmpty cardCalm.explanation)) = true from rfl,
    show pyIn "ease" (pyLower cardCalm.source_name) = true from rfl,
    show pyIn "ease" (pyLower cardCalm.reference) = true from rfl]
  norm_num

lemma specSearchClaimed_eval_ease :
    specSearchClaimed [cardEase, cardCalm] "ease" 5 =
      [⟨cardCalm, 5/7⟩, ⟨cardEase, 2/7⟩] := by
  unfold specSearchClaimed specSearchWith
  rw [if_neg (by decide)]
  have hph : posHits (specBaseScore "ease") [cardEase, cardCalm] =
      [⟨cardEase, 2/7⟩, ⟨cardCalm, 5/7⟩] := by
    simp only [posHits, List.filterMap_cons, List.filterMap_nil,
      specBaseScore_cardEase, specBaseScore_cardCalm]
    norm_num
  rw [hph]
  simp only [List.enum, List.enumFrom, sortIdx, List.foldl_cons, List.foldl_nil,
    insertIdx]
  norm_num

/-! ## Claim C1 -/

/-- C1 (counterexample): `search` does not return what the claim's
boost-free score formula predicts.  On the two-card store
`[cardEase, cardCalm]` with query "ease", the code returns `cardEase`
first with score 9/10 (the title boost), while the claim's formula scores
`cardEase` at 2/7 and would order `cardCalm` (5/7) first.  Both the
returned scores and the order differ. -/
theorem c1_counterexample :
    search [cardEase, cardCalm] "ease" 5 ≠
      specSearchClaimed [cardEase, cardCalm] "ease" 5 := by
  rw [search_eval_ease, specSearchClaimed_eval_ease]
  simp only [ne_eq, List.cons.injEq]
  intro h
  exact absurd h.1 (by simp [cardEase, cardCalm])

/-- C1 (amended): for every query string and limit,
`KnowledgeBase.search` returns exactly the stored cards whose score is
positive, where the score is the weighted-field sum over the lower-cased
whitespace tokens (weights title=4, tags=3, arabic=2, translation=2,
explanation=1, source name=1, reference=1), divided by (14 × token
count), clamped to at most 1, and then — the amendment — raised to at
least 9/10 when the non-empty trimmed lower-cased full query occurs in
the title; results are sorted by descending (boosted) score with ties in
original retrieval order, truncated to `limit`; and a query with no
non-empty tokens returns an empty result. -/
theorem c1_search_refines_spec (cards : List KnowledgeCard) (query : String)
    (limit : Nat) :
    search cards query limit = specSearchAmended cards query limit ∧
    (queryTerms query = [] → search cards query limit = []) := by
  constructor
  · unfold search specSearchAmended specSearchWith
    by_cases hq : queryTerms query = []
    · rw [if_pos hq, if_pos hq]
    · rw [if_neg hq, if_neg hq, scoredHits_eq_posHits, sortHits_eq_sortIdx]
  · intro hq
    unfold search
    rw [if_pos hq]

/-- Witness for C1: the refinement evaluated at a concrete store and
query, with the empty-token hypothesis discharged at the whitespace-only
query " ". -/
theorem c1_search_refines_spec_witness :
    search [cardEase] " " 3 = specSearchAmended [cardEase] " " 3 ∧
      search [cardEase] " " 3 = [] :=
  ⟨(c1_search_refines_spec [cardEase] " " 3).1,
   (c1_search_refines_spec [cardEase] " " 3).2 rfl⟩

/-! ## Membership facts about search -/

lemma mem_insertHit {x h : KnowledgeHit} :
    ∀ {l : List KnowledgeHit}, x ∈ insertHit h l ↔ x = h ∨ x ∈ l := by
  intro l
  induction l with
  | nil => simp [insertHit]
  | cons y ys ih =>
    simp only [insertHit]
    split
    · simp [List.mem_cons]
    · simp only [List.mem_cons, ih]
      tauto

lemma mem_sortHits {x : KnowledgeHit} :
    ∀ {l : List KnowledgeHit} {acc : List KnowledgeHit},
      x ∈ List.foldl (fun acc h => insertHit h acc) acc l ↔ x ∈ acc ∨ x ∈ l := by
  intro l
  induction l with
  | nil => simp
  | cons h t ih =>
    intro acc
    simp only [List.foldl_cons, ih, mem_insertHit, List.mem_cons]
    tauto

lemma mem_scoredHits_intro {cards : List KnowledgeCard} {q : String}
    {c : KnowledgeCard} (hc : c ∈ cards) (hpos : 0 < cardScore q c) :
    (⟨c, cardScore q c⟩ : KnowledgeHit) ∈ scoredHits cards q := by
  rw [scoredHits_eq_posHits]
  rw [cardScore_eq_spec] at hpos ⊢
  unfold posHits
  exact List.mem_filterMap.mpr ⟨c, hc, by rw [if_pos hpos]⟩

lemma mem_scoredHits_elim {cards : List KnowledgeCard} {q : String}
    {h : KnowledgeHit} (hh : h ∈ scoredHits cards q) :
    ∃ c ∈ cards, h = ⟨c, cardScore q c⟩ ∧ 0 < cardScore q c := by
  rw [scoredHits_eq_posHits] at hh
  unfold posHits at hh
  obtain ⟨c, hc, heq⟩ := List.mem_filterMap.mp hh
  by_cases hpos : 0 < specBoostedScore q c
  · rw [if_pos hpos] at heq
    exact ⟨c, hc, by rw [cardScore_eq_spec, ← Option.some_inj, heq],
      by rw [cardScore_eq_spec]; exact hpos⟩
  · rw [if_neg hpos] at heq
    exact absurd heq (by simp)

lemma mem_search {cards : List KnowledgeCard} {q : String} {limit : Nat}
    {h : KnowledgeHit} (hh : h ∈ search cards q limit) :
    ∃ c ∈ cards, h = ⟨c, cardScore q c⟩ ∧ 0 < cardScore q c := by
  unfold search at hh
  split at hh
  · simp at hh
  · exact mem_scoredHits_elim (mem_sortHits.mp (List.take_subset _ _ hh)
      |>.resolve_left (by simp))

/-! ## Claim C2 -/

/-- C2 (counterexample): the claim quantifies over every query whose
trimmed, lower-cased form is a substring of the title.  For the
whitespace-only query " " that trimmed form is the empty string, a
substring of every title, yet search returns no hit at all for the card —
so no score of at least 0.9 is returned. -/
theorem c2_counterexample :
    pyIn (fullQuery " ") (pyLower cardEase.title) = true ∧
      search [cardEase] " " 5 = [] ∧
      ¬∃ h ∈ search [cardEase] " " 5,
        h.card = cardEase ∧ (9 : ℚ)/10 ≤ h.score :=
  ⟨rfl, rfl, by simp [show search [cardEase] " " 5 = [] from rfl]⟩

/-- C2 (amended): for every stored card and every query that has at
least one non-empty token, whose trimmed lower-cased form is non-empty
and occurs in the card's title (in particular a query equal to a
non-blank exact title), search computes a hit for that card scoring at
least 9/10, every hit search returns for that card scores at least 9/10,
and the boost never lowers any card's score below the weighted-field
formula's value. -/
theorem c2_title_boost (cards : List KnowledgeCard) (q : String)
    (c : KnowledgeCard) (limit : Nat) (hc : c ∈ cards)
    (hfq : fullQuery q ≠ "")
    (hin : pyIn (fullQuery q) (pyLower c.title) = true) :
    (∃ h ∈ scoredHits cards q, h.card = c ∧ (9 : ℚ)/10 ≤ h.score) ∧
    (∀ h ∈ search cards q limit, h.card = c → (9 : ℚ)/10 ≤ h.score) ∧
    (∀ c' : KnowledgeCard, specBaseScore q c' ≤ cardScore q c') := by
  have hscore : (9 : ℚ)/10 ≤ cardScore q c := by
    rw [cardScore_eq_spec]
    unfold specBoostedScore
    rw [if_pos ⟨hfq, hin⟩]
    exact le_max_right _ _
  refine ⟨⟨⟨c, cardScore q c⟩,
      mem_scoredHits_intro hc (lt_of_lt_of_le (by norm_num) hscore),
      rfl, hscore⟩, ?_, ?_⟩
  · intro h hh hcard
    obtain ⟨c', _, heq, _⟩ := mem_search hh
    rw [heq] at hcard ⊢
    simp only at hcard ⊢
    rw [hcard]
    exact hscore
  · intro c'
    rw [cardScore_eq_spec]
    unfold specBoostedScore
    split
    · exact le_max_left _ _
    · exact le_rfl

/-- Witness for C2: the boost theorem applied to the store `[cardEase]`
with the query "ease", whose trimmed lower-cased form "ease" occurs in
the title "ease". -/
theorem c2_title_boost_witness :
    (∃ h ∈ scoredHits [cardEase] "ease",
        h.card = cardEase ∧ (9 : ℚ)/10 ≤ h.score) ∧
    (∀ h ∈ search [cardEase] "ease" 5,
        h.card = cardEase → (9 : ℚ)/10 ≤ h.score) ∧
    (∀ c' : KnowledgeCard, specBaseScore "ease" c' ≤ cardScore "ease" c') :=
  c2_title_boost [cardEase] "ease" cardEase 5 (by simp) (by decide) rfl

/-! ## Modes (core/modes.py) -/

/-- The closed `Mode` enumeration. -/
inductive Mode where
  | general
  | tutor
  | focus
  | health
  | mood
deriving DecidableEq, Repr

/-- `Mode.value`: the string value of each enum member. -/
def Mode.value : Mode → String
  | .general => "general"
  | .tutor => "tutor"
  | .focus => "focus"
  | .health => "health"
  | .mood => "mood"

/-- `MODE_HINTS`: tone and verbosity per mode. -/
def modeHints : Mode → String × String
  | .general => ("neutral", "balanced")
  | .tutor => ("patient and educational", "detailed")
  | .focus => ("direct and concise", "brief")
  | .health => ("careful and non-diagnostic", "balanced")
  | .mood => ("supportive and warm", "balanced")

/-- `parse_mode`: `Mode(value.strip().lower())`, `None` on failure. -/
def parseMode (value : String) : Option Mode :=
  let v := pyLower (pyStrip value)
  if v = "general" then some .general
  else if v = "tutor" then some .tutor
  else if v = "focus" then some .focus
  else if v = "health" then some .health
  else if v = "mood" then some .mood
  else none

/-! ## Settings and session state (core/config.py, raahib/state.py) -/

/-- The settings fields the pipeline reads; thresholds are rationals. -/
structure Settings where
  kbStrongMatchThreshold : ℚ := 72/100
  maxShortTermMemory : Nat := 20
deriving DecidableEq, Repr

/-- Default capability flags from `Settings.capabilities`. -/
def defaultCapabilities : List (String × Bool) :=
  [("commands", true), ("safety", true), ("knowledge", true), ("cloud_llm", true)]

/-- `AppState`: current mode, bounded history, capability flags. -/
structure AppState where
  mode : Mode := .general
  short_term_history : List String := []
  capabilities : List (String × Bool) := defaultCapabilities
  settings : Settings := {}
deriving DecidableEq, Repr

/-- `AppState.remember` on the history list: append, then delete the
overflow from the front (`del self.short_term_history[:overflow]`). -/
def rememberList (maxMem : Nat) (history : List String) (message : String) :
    List String :=
  let h := history ++ [message]
  h.drop (h.length - maxMem)

/-- `AppState.remember` acting on the whole state. -/
def AppState.remember (st : AppState) (message : String) : AppState :=
  { st with short_term_history :=
      rememberList st.settings.maxShortTermMemory st.short_term_history message }

/-! ## Safety gate (raahib/safety.py) -/

def CRISIS_KEYWORDS : List String :=
  ["suicide", "kill myself", "end my life", "self-harm", "hurt myself"]

def DISALLOWED_REQUEST_KEYWORDS : List String :=
  ["build a bomb", "make explosives", "bypass law enforcement"]

def HEALTH_DIAGNOSIS_TERMS : List String :=
  ["diagnose", "diagnosis", "what disease", "medical certainty"]

/-- `SafetyResult`: allowed flag, advisory message, optional metadata. -/
structure SafetyResult where
  allowed : Bool
  message : String := ""
  metadata : Option (List (String × String)) := none
deriving DecidableEq, Repr

/-- `any(keyword in lowered for keyword in kws)`. -/
def containsAny (lowered : String) (kws : List String) : Bool :=
  kws.any (fun k => pyIn k lowered)

def disallowedMessage : String :=
  "I can\x27t help with dangerous or illegal requests."

def crisisMessage : String :=
  "I care about your safety. If you\x27re in immediate danger, call local emergency services now. You can also contact a crisis hotline in your country right away."

def healthDisclaimerMessage : String :=
  "I can share general health information, but this is not a diagnosis."

/-- `SafetyGate.evaluate` (safety.py lines 33-60). -/
def evaluate (text : String) (mode : Mode) : SafetyResult :=
  let lowered := pyLower text
  if containsAny lowered DISALLOWED_REQUEST_KEYWORDS then
    { allowed := false, message := disallowedMessage,
      metadata := some [("type", "safety"), ("reason", "disallowed_domain")] }
  else if mode = .mood ∧ containsAny lowered CRISIS_KEYWORDS then
    { allowed := false, message := crisisMessage,
      metadata := some [("type", "safety"), ("reason", "crisis_guidance")] }
  else if mode = .health ∧ containsAny lowered HEALTH_DIAGNOSIS_TERMS then
    { allowed := true, message := healthDisclaimerMessage,
      metadata := some [("type", "safety"), ("reason", "health_disclaimer")] }
  else
    { allowed := true }

/-! ## Knowledge store state (kb.py: add_card / get_card / delete_card)

The SQLite table is modeled as an in-memory list of cards plus the
auto-increment counter; `AUTOINCREMENT` never reuses identifiers. -/

/-- The store: next identifier to assign and the rows in insertion
(retrieval) order. -/
structure KB where
  nextId : Nat := 1
  cards : List KnowledgeCard := []
deriving DecidableEq, Repr

/-- The arguments of `add_card` (required fields first, optional columns
defaulting to `None`). -/
structure AddFields where
  type : String
  title : String
  source_name : String
  reference : String
  arabic : Option String := none
  translation_en : Option String := none
  explanation : Option String := none
  auth_grade : Option String := none
  tags : Option String := none
deriving DecidableEq, Repr

/-- `add_card`: inserts with the next identifier and the current
timestamp, then returns the stored card.  The Python code performs no
validation of the field values. -/
def addCard (kb : KB) (f : AddFields) (createdAt : String) :
    KB × KnowledgeCard :=
  let card : KnowledgeCard :=
    { id := kb.nextId, type := f.type, title := f.title, arabic := f.arabic,
      translation_en := f.translation_en, explanation := f.explanation,
      source_name := f.source_name, reference := f.reference,
      auth_grade := f.auth_grade, tags := f.tags, created_at := createdAt }
  ({ nextId := kb.nextId + 1, cards := kb.cards ++ [card] }, card)

/-- `get_card`: the first row with the given id, or not-found. -/
def getCard (kb : KB) (i : Int) : Option KnowledgeCard :=
  kb.cards.find? (fun c => (c.id : Int) == i)

/-- `delete_card`: removes rows with the id, reports whether any row was
deleted (`rowcount > 0`). -/
def deleteCard (kb : KB) (i : Int) : KB × Bool :=
  ({ kb with cards := kb.cards.filter (fun c => (c.id : Int) ≠ i) },
   kb.cards.any (fun c => (c.id : Int) == i))

/-! ## Command interpreter (raahib/commands.py) -/

/-- `CommandResult`. -/
structure CommandResult where
  handled : Bool
  output : String := ""
  metadata : Option (List (String × String)) := none
deriving DecidableEq, Repr

/-- Python exceptions that can escape the command stage: a failed file
write in `kb:export` and end-of-input during the `kb:add` prompts. -/
inductive PyExc where
  | osError (path : String)
  | eofError
deriving DecidableEq, Repr

/-- The external world: file-write success per path, the captured
`kb:add` field set (none = end of input), the generation backend's
credential and response, the clock, and the configured model name. -/
structure Env where
  fsOk : String → Bool
  addInput : Option AddFields
  apiKey : Option String
  netResp : Option (Option String)
  now : String
  model : String := "gpt-4.1-mini"

/-- The character list after the first occurrence of `sep`
(Python `s.split(sep, 1)[1]`), if `sep` occurs. -/
def splitOnce (sep : Char) : List Char → Option (List Char)
  | [] => none
  | c :: cs => if c = sep then some cs else splitOnce sep cs

/-- Python `s.split(sep, 1)[1]` for a separator known to occur. -/
def pyAfter (sep : Char) (s : String) : String :=
  ((splitOnce sep s.data).map String.mk).getD ""

/-- Digit-string value, `none` when empty or non-digit. -/
def digitsVal (l : List Char) : Option Nat :=
  if l = [] then none
  else
    l.foldl
      (fun acc c =>
        match acc with
        | none => none
        | some n => if c.isDigit then some (n * 10 + (c.toNat - 48)) else none)
      (some 0)

/-- Python `int(s)` on an already-stripped string: optional sign and a
non-empty digit run; failure models `ValueError`. -/
def pyInt (s : String) : Option Int :=
  match s.data with
  | '+' :: rest => (digitsVal rest).map Int.ofNat
  | '-' :: rest => (digitsVal rest).map (fun n => -(n : Int))
  | l => (digitsVal l).map Int.ofNat

/-- Two-decimal rendering of a score (Python `f"{x:.2f}"` for values in
[0, 1], rounding to the nearest hundredth). -/
def fmt2 (q : ℚ) : String :=
  let n : ℤ := ⌊q * 100 + 1/2⌋
  toString (n / 100) ++ "." ++ (if n % 100 < 10 then "0" else "") ++
    toString (n % 100)

/-- Keyed insertion for `sorted(capabilities.items())`. -/
def insertPair (p : String × Bool) :
    List (String × Bool) → List (String × Bool)
  | [] => [p]
  | x :: xs => if p.1 < x.1 then p :: x :: xs else x :: insertPair p xs

/-- `sorted` on key/flag pairs (keys are distinct). -/
def sortPairs (l : List (String × Bool)) : List (String × Bool) :=
  l.foldr insertPair []

/-- The `status` command's rendering. -/
def statusOutput (st : AppState) : String :=
  "mode=" ++ st.mode.value ++ "; capabilities: " ++
    String.intercalate ", "
      ((sortPairs st.capabilities).map
        (fun p => p.1 ++ "=" ++ (if p.2 then "on" else "off")))

/-- Enum iteration order of `Mode`. -/
def allModes : List Mode := [.general, .tutor, .focus, .health, .mood]

/-- One `kb:search` result line. -/
def searchLine (h : KnowledgeHit) : String :=
  toString h.card.id ++ " | " ++ h.card.type ++ " | " ++ h.card.title ++
    " | " ++ fmt2 h.score

/-- The `kb:show` rendering of a card. -/
def showOutput (c : KnowledgeCard) : String :=
  "type: " ++ c.type ++ "\n" ++
  "title: " ++ c.title ++ "\n" ++
  "arabic: " ++ orEmpty c.arabic ++ "\n" ++
  "translation: " ++ orEmpty c.translation_en ++ "\n" ++
  "explanation: " ++ orEmpty c.explanation ++ "\n" ++
  "source_name: " ++ c.source_name ++ "\n" ++
  "reference: " ++ c.reference ++ "\n" ++
  "auth_grade: " ++ orEmpty c.auth_grade ++ "\n" ++
  "tags: " ++ orEmpty c.tags

/-- Python `history[-5:]`. -/
def lastN (n : Nat) (l : List String) : List String := l.drop (l.length - n)

/-- A handled `CommandResult` with output text and metadata. -/
def cmdOk (out : String) (meta : List (String × String)) : CommandResult :=
  { handled := true, output := out, metadata := some meta }

/-- The pass-through `CommandResult`. -/
def notHandled : CommandResult := { handled := false }

/-- `CommandParser.parse` (commands.py lines 33-184).  Directives are
checked in source order against the lower-cased stripped input; the
`kb:export` file write and the `kb:add` prompt capture are the fallible
operations. -/
def parse (env : Env) (kb : KB) (text : String) (st : AppState) :
    Except PyExc (CommandResult × AppState × KB) :=
  let cleaned := pyStrip text
  if cleaned = "" then .ok (notHandled, st, kb)
  else if pyStartsWith (pyLower cleaned) "mode:" then
    let modeName := pyStrip (pyAfter ':' cleaned)
    match parseMode modeName with
    | none =>
        .ok (cmdOk
          ("Unknown mode \x27" ++ modeName ++ "\x27. Allowed: " ++
            String.intercalate ", " (allModes.map Mode.value))
          [("type", "command"), ("name", "mode"), ("success", "false")],
          st, kb)
    | some m =>
        .ok (cmdOk ("Mode set to " ++ m.value ++ ".")
          [("type", "command"), ("name", "mode"), ("success", "true")],
          { st with mode := m }, kb)
  else if pyLower cleaned = "status" then
    .ok (cmdOk (statusOutput st)
      [("type", "command"), ("name", "status"), ("success", "true")], st, kb)
  else if pyStartsWith (pyLower cleaned) "kb:search " then
    let query := pyStrip (pyAfter ' ' cleaned)
    let hits := search kb.cards query 5
    if hits = [] then
      .ok (cmdOk "No KB hits found."
        [("type", "command"), ("name", "kb_search"), ("success", "true"),
          ("count", "0")], st, kb)
    else
      .ok (cmdOk (String.intercalate "\n" (hits.map searchLine))
        [("type", "command"), ("name", "kb_search"), ("success", "true"),
          ("count", toString hits.length)], st, kb)
  else if pyStartsWith (pyLower cleaned) "kb:show " then
    match pyInt (pyStrip (pyAfter ' ' cleaned)) with
    | none =>
        .ok (cmdOk "Invalid KB id."
          [("type", "command"), ("name", "kb_show"), ("success", "false")],
          st, kb)
    | some i =>
        match getCard kb i with
        | none =>
            .ok (cmdOk "Card not found."
              [("type", "command"), ("name", "kb_show"), ("success", "false")],
              st, kb)
        | some card =>
            .ok (cmdOk (showOutput card)
              [("type", "command"), ("name", "kb_show"), ("success", "true"),
                ("card_id", toString card.id)], st, kb)
  else if pyStartsWith (pyLower cleaned) "kb:delete " then
    match pyInt (pyStrip (pyAfter ' ' cleaned)) with
    | none =>
        .ok (cmdOk "Invalid KB id."
          [("type", "command"), ("name", "kb_delete"), ("success", "false")],
          st, kb)
    | some i =>
        let r := deleteCard kb i
        .ok (cmdOk (if r.2 then "Deleted." else "Card not found.")
          [("type", "command"), ("name", "kb_delete"),
            ("success", if r.2 then "true" else "false"),
            ("card_id", toString i)], st, r.1)
  else if pyStartsWith (pyLower cleaned) "kb:export " then
    let path := pyStrip (pyAfter ' ' cleaned)
    if env.fsOk path then
      .ok (cmdOk ("Exported KB to " ++ path)
        [("type", "command"), ("name", "kb_export"), ("success", "true"),
          ("path", path)], st, kb)
    else .error (.osError path)
  else if pyLower cleaned = "kb:add" then
    match env.addInput with
    | none => .error .eofError
    | some f =>
        let r := addCard kb f env.now
        .ok (cmdOk
          ("Added KB card #" ++ toString r.2.id ++ ": " ++ r.2.title)
          [("type", "command"), ("name", "kb_add"), ("success", "true"),
            ("card_id", toString r.2.id)], st, r.1)
  else if pyLower cleaned = "memory:show" then
    .ok (cmdOk
      ("Memory view (stub): " ++
        String.intercalate " | " (lastN 5 st.short_term_history))
      [("type", "command"), ("name", "memory_show"), ("success", "true")],
      st, kb)
  else .ok (notHandled, st, kb)

/-! ## Generation collaborator (core/llm.py) -/

/-- `CloudLLM.generate`: offline fallbacks for a missing credential, a
transport failure, or an empty remote answer; otherwise the remote text
with provider metadata.  None of the four metadata dictionaries carries
a "type" key. -/
def generate (env : Env) : String × List (String × String) :=
  match env.apiKey with
  | none =>
      ("Offline fallback: no cloud API key configured. Please set OPENAI_API_KEY to enable cloud responses.",
       [("provider", "offline"), ("reason", "missing_api_key")])
  | some k =>
      if k = "" then
        ("Offline fallback: no cloud API key configured. Please set OPENAI_API_KEY to enable cloud responses.",
         [("provider", "offline"), ("reason", "missing_api_key")])
      else
        match env.netResp with
        | none =>
            ("Offline fallback: cloud call failed, so local response mode is active.",
             [("provider", "offline"), ("reason", "network_error")])
        | some none =>
            ("Cloud response unavailable; using offline fallback.",
             [("provider", "offline"), ("reason", "empty_output")])
        | some (some t) =>
            if t = "" then
              ("Cloud response unavailable; using offline fallback.",
               [("provider", "offline"), ("reason", "empty_output")])
            else (t, [("provider", "openai"), ("model", env.model)])

/-! ## Router (raahib/router.py) -/

def islamicKeywords : List String :=
  ["quran", "qur\x27an", "hadith", "dua", "imam", "fiqh", "fatwa", "marja",
   "najaf", "karbala", "allah", "sabr", "ayah", "tafsir", "sunnah"]

/-- `Router._is_islamic_query`. -/
def isIslamicQuery (userText : String) : Bool :=
  containsAny (pyLower userText) islamicKeywords

/-- `(text, metadata)` of a routed turn. -/
structure RouteResult where
  text : String
  metadata : List (String × String)
deriving DecidableEq, Repr

/-- Python dict lookup on an association list built left to right with
later bindings overriding earlier ones. -/
def dlookup (l : List (String × String)) (k : String) : Option String :=
  l.foldl (fun acc p => if p.1 = k then some p.2 else acc) none

/-- A truthy optional text contributes one reply part
(`if top.card.arabic: text_parts.append(...)`). -/
def optPart (o : Option String) : List String :=
  match o with
  | none => []
  | some s => if s = "" then [] else [s]

/-- The structured strong-match reply text. -/
def kbReplyText (c : KnowledgeCard) : String :=
  String.intercalate "\n"
    ([c.title] ++ optPart c.arabic ++ optPart c.translation_en ++
      optPart c.explanation ++
      ["Source: " ++ c.source_name ++ " (" ++ c.reference ++ ")"] ++
      (optPart c.auth_grade).map (fun g => "Auth grade: " ++ g))

/-- Python `max(hits, key=lambda hit: hit.score)`: keeps the first
maximal element. -/
def firstMaxHit : KnowledgeHit → List KnowledgeHit → KnowledgeHit
  | best, [] => best
  | best, x :: xs =>
    if best.score < x.score then firstMaxHit x xs else firstMaxHit best xs

/-- The knowledge-miss reply. -/
def kbMissText : String :=
  "I don\u2019t have a reliably sourced entry for that yet. You can add it with kb:add."

/-- The shared fall-through after the knowledge stage: the precision
guard, then the generation stage with history update. -/
def routeFallback (env : Env) (st1 : AppState) (kb1 : KB) (userText : String)
    (sr : SafetyResult) : RouteResult × AppState × KB × Nat :=
  if isIslamicQuery userText then
    (⟨kbMissText, [("type", "kb_miss")]⟩, st1, kb1, 0)
  else
    let hints := modeHints st1.mode
    let _modeHint := "tone=" ++ hints.1 ++ "; verbosity=" ++ hints.2
    let g := generate env
    let llmText := if sr.message ≠ "" then pyStrip (sr.message ++ " " ++ g.1)
      else g.1
    let st2 := (st1.remember ("user:" ++ userText)).remember
      ("assistant:" ++ llmText)
    (⟨llmText, [("type", "llm")] ++ g.2⟩, st2, kb1, 1)

/-- `Router.route` (router.py lines 61-117).  The fourth component
counts generation-collaborator invocations in the turn. -/
def route (env : Env) (st : AppState) (kb : KB) (userText : String) :
    Except PyExc (RouteResult × AppState × KB × Nat) :=
  match parse env kb userText st with
  | .error e => .error e
  | .ok (cr, st1, kb1) =>
    if cr.handled then
      .ok (⟨cr.output, cr.metadata.getD [("type", "command")]⟩, st1, kb1, 0)
    else
      let sr := evaluate userText st1.mode
      if sr.allowed = false then
        .ok (⟨sr.message,
          sr.metadata.getD [("type", "safety"), ("blocked", "true")]⟩,
          st1, kb1, 0)
      else
        match search kb1.cards userText 5 with
        | [] => .ok (routeFallback env st1 kb1 userText sr)
        | h :: t =>
          let top := firstMaxHit h t
          if st1.settings.kbStrongMatchThreshold ≤ top.score then
            .ok (⟨kbReplyText top.card,
              [("type", "kb"), ("card_id", toString top.card.id),
                ("score", fmt2 top.score),
                ("source_name", top.card.source_name),
                ("reference", top.card.reference),
                ("auth_grade", orEmpty top.card.auth_grade)]⟩,
              st1, kb1, 0)
          else .ok (routeFallback env st1 kb1 userText sr)

/-! ## Claim C7: bounded FIFO history -/

lemma rememberList_eq_drop (N : Nat) (h : List String) (m : String) :
    rememberList N h m = (h ++ [m]).drop (h.length + 1 - N) := by
  simp [rememberList]

lemma rememberList_length (N : Nat) (h : List String) (m : String) :
    (rememberList N h m).length ≤ N := by
  simp only [rememberList, List.length_drop, List.length_append,
    List.length_cons, List.length_nil]
  omega

lemma foldl_rememberList (N : Nat) :
    ∀ (ms : List String) (h : List String), h.length ≤ N →
      List.foldl (rememberList N) h ms
        = (h ++ ms).drop (h.length + ms.length - N)
  | [], h, hle => by
    simp [Nat.sub_eq_zero_of_le hle]
  | m :: ms, h, hle => by
    rw [List.foldl_cons,
      foldl_rememberList N ms (rememberList N h m) (rememberList_length N h m)]
    have hlen : (rememberList N h m).length
        = (h.length + 1) - (h.length + 1 - N) := by
      rw [rememberList_eq_drop]
      simp
    rw [rememberList_eq_drop]
    have hk : h.length + 1 - N ≤ (h ++ [m]).length := by simp
    rw [show ((h ++ [m]).drop (h.length + 1 - N)) ++ ms
        = ((h ++ [m]) ++ ms).drop (h.length + 1 - N) from
      (List.drop_append_of_le_length hk).symm]
    rw [List.drop_drop]
    rw [show (h ++ [m]) ++ ms = h ++ (m :: ms) by simp]
    congr 1
    simp only [List.length_drop, List.length_append, List.length_cons,
      List.length_nil]
    omega

/-- C7: the session history is bounded by the configured capacity: a
`remember` never leaves more than N entries, eviction is a trim from the
front of the appended list (no reordering), and N+1 `remember` calls from
an empty history leave exactly the last N messages — the first message is
gone (when not repeated) and the most recent is at the end. -/
theorem c7_history_bounded (N : Nat) (h : List String) (m : String)
    (ms : List String) :
    (rememberList N h m).length ≤ N ∧
    (∃ k, rememberList N h m = (h ++ [m]).drop k) ∧
    (ms.length = N + 1 → List.foldl (rememberList N) [] ms = ms.drop 1) ∧
    (0 < N → ms.length = N + 1 → ms.Nodup →
      (∀ x, ms.head? = some x → x ∉ List.foldl (rememberList N) [] ms) ∧
      (List.foldl (rememberList N) [] ms).getLast? = ms.getLast?) := by
  have hfold : ms.length = N + 1 →
      List.foldl (rememberList N) [] ms = ms.drop 1 := by
    intro hlen
    rw [foldl_rememberList N ms [] (by simp), hlen]
    have h1 : ([] : List String).length + (N + 1) - N = 1 := by
      simp only [List.length_nil]
      omega
    rw [List.nil_append, h1]
  refine ⟨rememberList_length N h m, ⟨h.length + 1 - N, rememberList_eq_drop N h m⟩,
    hfold, ?_⟩
  intro hN hlen hnd
  obtain ⟨a, tail, rfl⟩ : ∃ a tail, ms = a :: tail := by
    cases ms with
    | nil => simp at hlen
    | cons a tail => exact ⟨a, tail, rfl⟩
  obtain ⟨b, tail2, rfl⟩ : ∃ b tail2, tail = b :: tail2 := by
    cases tail with
    | nil => simp at hlen; omega
    | cons b tail2 => exact ⟨b, tail2, rfl⟩
  constructor
  · intro x hx
    rw [hfold hlen]
    simp only [List.head?_cons, Option.some_inj] at hx
    subst hx
    simp only [List.drop_one, List.tail_cons]
    exact (List.nodup_cons.mp hnd).1
  · rw [hfold hlen]
    simp [List.getLast?_cons_cons]

/-- Witness for C7: capacity 2 with three remembered messages; the first
message is evicted and the last is at the end. -/
theorem c7_history_bounded_witness :
    List.foldl (rememberList 2) [] ["x", "y", "z"] = ["y", "z"] ∧
      "x" ∉ List.foldl (rememberList 2) [] ["x", "y", "z"] ∧
      (List.foldl (rememberList 2) [] ["x", "y", "z"]).getLast? = some "z" := by
  have h := c7_history_bounded 2 [] "m" ["x", "y", "z"]
  have h4 := h.2.2.2 (by decide) (by decide) (by decide)
  refine ⟨h.2.2.1 (by decide), h4.1 "x" rfl, ?_⟩
  rw [h4.2]
  decide

/-! ## Claim C8: CRUD round trip -/

/-- Store well-formedness: every row's id is below the counter (SQLite
AUTOINCREMENT assigns fresh ids and never reuses them). -/
def kbWF (kb : KB) : Prop := ∀ c ∈ kb.cards, c.id < kb.nextId

/-- The add/get round trip, shared by the store lemmas below. -/
lemma addCard_then_getCard (kb : KB) (f : AddFields) (now : String)
    (hwf : kbWF kb) :
    getCard (addCard kb f now).1 ((addCard kb f now).2.id : Int)
      = some (addCard kb f now).2 := by
  unfold addCard getCard
  simp only [List.find?_append]
  have hnone : kb.cards.find? (fun c => (c.id : Int) == (kb.nextId : Int))
      = none := by
    rw [List.find?_eq_none]
    intro c hc
    have := hwf c hc
    simp only [beq_iff_eq]
    omega
  rw [hnone]
  simp

/-- C8: `addCard` then `getCard` on the returned id yields the very card
that was stored; `deleteCard` then `getCard` reports not-found; and a
second `deleteCard` of the same id (or any absent id) returns false
rather than an error. -/
theorem c8_crud_round_trip (kb : KB) (f : AddFields) (now : String)
    (hwf : kbWF kb) :
    (getCard (addCard kb f now).1 ((addCard kb f now).2.id : Int)
        = some (addCard kb f now).2) ∧
    ((addCard kb f now).2
        = { id := kb.nextId, type := f.type, title := f.title,
            arabic := f.arabic, translation_en := f.translation_en,
            explanation := f.explanation, source_name := f.source_name,
            reference := f.reference, auth_grade := f.auth_grade,
            tags := f.tags, created_at := now }) ∧
    (∀ i : Int, getCard (deleteCard kb i).1 i = none) ∧
    (∀ i : Int, (deleteCard (deleteCard kb i).1 i).2 = false) ∧
    (∀ i : Int, getCard kb i = none → (deleteCard kb i).2 = false) := by
  refine ⟨addCard_then_getCard kb f now hwf, rfl, ?_, ?_, ?_⟩
  · intro i
    unfold deleteCard getCard
    rw [List.find?_eq_none]
    intro c hc
    simp only [List.mem_filter, decide_eq_true_eq] at hc
    simp only [beq_iff_eq]
    exact hc.2
  · intro i
    unfold deleteCard
    simp only [List.any_eq_false, List.mem_filter, decide_eq_true_eq,
      beq_iff_eq]
    rintro c ⟨_, hne⟩ heq
    exact hne heq
  · intro i hnone
    unfold deleteCard
    unfold getCard at hnone
    rw [List.find?_eq_none] at hnone
    simp only [List.any_eq_false]
    intro c hc
    simpa using hnone c hc

/-- Concrete `add_card` arguments matching the repository's own test
(`test_kb_add_get_delete`). -/
def testFields : AddFields :=
  { type := "dua", title := "Test Dua", source_name := "Test Source",
    reference := "T1", translation_en := some "A test dua",
    explanation := some "A test explanation" }

/-- Witness for C8: the round trip on an empty store with a concrete
card. -/
theorem c8_crud_round_trip_witness :
    getCard (addCard {} testFields "t0").1 ((addCard {} testFields "t0").2.id : Int)
        = some (addCard {} testFields "t0").2 ∧
      getCard (deleteCard ({} : KB) 1).1 1 = none :=
  ⟨(c8_crud_round_trip {} testFields "t0" (by intro c hc; simp [KB.cards] at hc)).1,
   (c8_crud_round_trip {} testFields "t0"
      (by intro c hc; simp [KB.cards] at hc)).2.2.1 1⟩

/-! ## Claim C5: safety gate order -/

lemma startsWithL_nil_pat (l : List Char) : startsWithL l [] = true := by
  cases l <;> rfl

lemma startsWithL_append : ∀ (l tail pat : List Char),
    startsWithL l pat = true → startsWithL (l ++ tail) pat = true
  | l, tail, [], _ => startsWithL_nil_pat (l ++ tail)
  | [], _, p :: ps, h => by simp [startsWithL] at h
  | c :: cs, tail, p :: ps, h => by
    simp only [startsWithL, Bool.and_eq_true, beq_iff_eq] at h ⊢
    exact ⟨h.1, startsWithL_append cs tail ps h.2⟩

lemma subL_nil_pat : ∀ (l : List Char), subL [] l = true
  | [] => rfl
  | _ :: _ => by simp [subL, startsWithL]

lemma subL_append_right : ∀ (l tail pat : List Char),
    subL pat l = true → subL pat (l ++ tail) = true
  | [], tail, pat, hh => by
    have : pat = [] := by simpa [subL, List.isEmpty_iff] using hh
    subst this
    exact subL_nil_pat tail
  | c :: cs, tail, pat, hh => by
    simp only [subL, Bool.or_eq_true, List.cons_append] at hh ⊢
    rcases hh with h1 | h2
    · exact Or.inl (by
        have := startsWithL_append (c :: cs) tail pat h1
        simpa using this)
    · exact Or.inr (subL_append_right cs tail pat h2)

lemma subL_append_left : ∀ (pre l pat : List Char),
    subL pat l = true → subL pat (pre ++ l) = true
  | [], _, _, hh => hh
  | c :: pre, l, pat, hh => by
    simp only [subL, Bool.or_eq_true, List.cons_append]
    exact Or.inr (subL_append_left pre l pat hh)

lemma data_append (a b : String) : (a ++ b).data = a.data ++ b.data := rfl

/-- Any text surrounding a disallowed phrase still contains it after
lower-casing. -/
lemma containsAny_disallowed (pre post : String) :
    containsAny (pyLower (pre ++ "build a bomb" ++ post))
      DISALLOWED_REQUEST_KEYWORDS = true := by
  have hmid : lowerL ("build a bomb").data = ("build a bomb").data := rfl
  have hsub : subL ("build a bomb").data
      (lowerL (pre ++ "build a bomb" ++ post).data) = true := by
    rw [data_append, data_append]
    unfold lowerL
    rw [List.map_append, List.map_append]
    refine subL_append_right _ _ _ (subL_append_left _ _ _ ?_)
    show subL ("build a bomb").data (lowerL ("build a bomb").data) = true
    rw [hmid]
    decide
  unfold containsAny
  rw [List.any_eq_true]
  exact ⟨"build a bomb", by decide, hsub⟩

def disallowedResult : SafetyResult :=
  { allowed := false, message := disallowedMessage,
    metadata := some [("type", "safety"), ("reason", "disallowed_domain")] }

def crisisResult : SafetyResult :=
  { allowed := false, message := crisisMessage,
    metadata := some [("type", "safety"), ("reason", "crisis_guidance")] }

def healthResult : SafetyResult :=
  { allowed := true, message := healthDisclaimerMessage,
    metadata := some [("type", "safety"), ("reason", "health_disclaimer")] }

/-- C5: the gate's checks apply in fixed first-match-wins order on the
lower-cased text: a disallowed phrase blocks in every mode (in
particular any text surrounding "build a bomb"); otherwise a crisis
phrase blocks only in mood mode; otherwise a diagnosis term passes with
the disclaimer only in health mode; otherwise the text passes with no
message. -/
theorem c5_safety_gate_order (text : String) (mode : Mode) :
    (containsAny (pyLower text) DISALLOWED_REQUEST_KEYWORDS = true →
      evaluate text mode = disallowedResult) ∧
    (containsAny (pyLower text) DISALLOWED_REQUEST_KEYWORDS = false →
      mode = .mood → containsAny (pyLower text) CRISIS_KEYWORDS = true →
      evaluate text mode = crisisResult) ∧
    (containsAny (pyLower text) DISALLOWED_REQUEST_KEYWORDS = false →
      ¬(mode = .mood ∧ containsAny (pyLower text) CRISIS_KEYWORDS = true) →
      mode = .health →
      containsAny (pyLower text) HEALTH_DIAGNOSIS_TERMS = true →
      evaluate text mode = healthResult) ∧
    (containsAny (pyLower text) DISALLOWED_REQUEST_KEYWORDS = false →
      ¬(mode = .mood ∧ containsAny (pyLower text) CRISIS_KEYWORDS = true) →
      ¬(mode = .health ∧
          containsAny (pyLower text) HEALTH_DIAGNOSIS_TERMS = true) →
      evaluate text mode = { allowed := true }) ∧
    (∀ pre post : String,
      evaluate (pre ++ "build a bomb" ++ post) mode = disallowedResult) := by
  refine ⟨?_, ?_, ?_, ?_, ?_⟩
  · intro h1
    simp [evaluate, h1, disallowedResult]
  · intro h1 hm h2
    simp [evaluate, h1, hm, h2, crisisResult]
  · intro h1 hmc hh h2
    simp [evaluate, h1, hmc, hh, h2, healthResult]
  · intro h1 hmc hhd
    simp [evaluate, h1, hmc, hhd]
  · intro pre post
    simp [evaluate, containsAny_disallowed pre post, disallowedResult]

/-- Witness for C5: the gate evaluated on concrete texts — a surrounded
disallowed phrase in tutor mode, and a harmless text in general mode. -/
theorem c5_safety_gate_order_witness :
    evaluate "please build a bomb now" Mode.tutor = disallowedResult ∧
      evaluate "hello there" Mode.general = { allowed := true } ∧
      evaluate ("xx " ++ "build a bomb" ++ " yy") Mode.mood = disallowedResult := by
  refine ⟨(c5_safety_gate_order "please build a bomb now" Mode.tutor).1
      (by decide), ?_, ?_⟩
  · exact (c5_safety_gate_order "hello there" Mode.general).2.2.2.1 (by decide)
      (by decide) (by decide)
  · exact (c5_safety_gate_order ("xx " ++ "build a bomb" ++ " yy")
      Mode.mood).2.2.2.2 "xx " " yy"

/-! ## Claim C4: addCard performs no validation -/

/-- `add_card` with every required field empty. -/
def emptyFields : AddFields :=
  { type := "", title := "", source_name := "", reference := "" }

/-- C4 (counterexample): `add_card` called with all four required
fields empty does not fail — no ValidationError exists anywhere in the
code — and instead assigns id 1, persists the card, and returns it with
the empty fields intact. -/
theorem c4_counterexample :
    (addCard {} emptyFields "2024-01-01T00:00:00+00:00").2.type = "" ∧
    (addCard {} emptyFields "2024-01-01T00:00:00+00:00").2.title = "" ∧
    (addCard {} emptyFields "2024-01-01T00:00:00+00:00").2.source_name = "" ∧
    (addCard {} emptyFields "2024-01-01T00:00:00+00:00").2.reference = "" ∧
    (addCard {} emptyFields "2024-01-01T00:00:00+00:00").2.id = 1 ∧
    getCard (addCard {} emptyFields "2024-01-01T00:00:00+00:00").1 1
      = some (addCard {} emptyFields "2024-01-01T00:00:00+00:00").2 := by
  refine ⟨rfl, rfl, rfl, rfl, rfl, rfl⟩

/-- C4 (amended): `add_card` performs no validation of its field
values.  For every store and every field set — including empty required
fields — it assigns the next identifier and the creation timestamp,
persists the card, and returns the full stored card. -/
theorem c4_add_card_no_validation (kb : KB) (f : AddFields) (now : String)
    (hwf : kbWF kb) :
    ((addCard kb f now).2
        = { id := kb.nextId, type := f.type, title := f.title,
            arabic := f.arabic, translation_en := f.translation_en,
            explanation := f.explanation, source_name := f.source_name,
            reference := f.reference, auth_grade := f.auth_grade,
            tags := f.tags, created_at := now }) ∧
    ((addCard kb f now).1.cards = kb.cards ++ [(addCard kb f now).2]) ∧
    ((addCard kb f now).1.nextId = kb.nextId + 1) ∧
    (getCard (addCard kb f now).1 (kb.nextId : Int)
        = some (addCard kb f now).2) := by
  refine ⟨rfl, rfl, rfl, ?_⟩
  exact addCard_then_getCard kb f now hwf

/-- Witness for C4: the amended behavior on the empty store with empty
required fields. -/
theorem c4_add_card_no_validation_witness :
    (addCard {} emptyFields "t").1.cards
        = [] ++ [(addCard {} emptyFields "t").2] ∧
      getCard (addCard {} emptyFields "t").1 (1 : Int)
        = some (addCard {} emptyFields "t").2 :=
  ⟨(c4_add_card_no_validation {} emptyFields "t"
      (by intro c hc; simp [KB.cards] at hc)).2.1,
   (c4_add_card_no_validation {} emptyFields "t"
      (by intro c hc; simp [KB.cards] at hc)).2.2.2⟩

/-! ## Claim C3: the kb:export branch can raise through Router.route -/

/-- An environment whose file writes fail (for example the export path's
directory does not exist or is not writable). -/
def failingFS : Env :=
  { fsOk := fun _ => false, addInput := none, apiKey := none,
    netResp := none, now := "t" }

/-- C3 (code bug): `Router.route` catches nothing, and the `kb:export`
branch of `CommandParser.parse` calls `KnowledgeBase.export_json`, whose
file write can raise `OSError`; the exception crosses the Router
boundary, contradicting the spec's stated policy that every failure is
converted to a normal (text, metadata) result.  Evaluated here on the
input `kb:export /bad/out.json` with a failing filesystem. -/
theorem c3_export_can_raise :
    route failingFS {} {} "kb:export /bad/out.json"
      = .error (.osError "/bad/out.json") := rfl

/-! ## Claim C6: "status" is always handled by the command stage -/

/-- C6: for every environment, session state, and store, routing the
input "status" returns the Command Interpreter's status output and
metadata verbatim (type=command), leaves the state and store untouched,
and invokes the generation collaborator zero times. -/
theorem c6_status_is_command (env : Env) (st : AppState) (kb : KB) :
    route env st kb "status"
      = .ok (⟨statusOutput st,
          [("type", "command"), ("name", "status"), ("success", "true")]⟩,
          st, kb, 0) := rfl

/-! ## Shape lemmas for the route branches -/

/-- Every outcome of `parse` is a pass-through with untouched state, an
exception, or a handled command result whose metadata discriminator is
"command" and which leaves the history untouched. -/
lemma parse_shape (env : Env) (kb : KB) (text : String) (st : AppState)
    {res : Except PyExc (CommandResult × AppState × KB)}
    (hres : parse env kb text st = res) :
    res = .ok (notHandled, st, kb) ∨
    (∃ e, res = .error e) ∨
    (∃ out meta st1 kb1,
      res = .ok (cmdOk out meta, st1, kb1) ∧
      dlookup meta "type" = some "command" ∧
      st1.short_term_history = st.short_term_history) := by
  unfold parse at hres
  dsimp only at hres
  repeat' split at hres
  all_goals
    first
      | exact Or.inl hres.symm
      | exact Or.inr (Or.inl ⟨_, hres.symm⟩)
      | (refine Or.inr (Or.inr ⟨_, _, _, _, hres.symm, ?_, rfl⟩)
         simp [dlookup])

/-- The gate produces exactly one of four results. -/
lemma evaluate_cases (text : String) (mode : Mode) :
    evaluate text mode = disallowedResult ∨
    evaluate text mode = crisisResult ∨
    evaluate text mode = healthResult ∨
    evaluate text mode = { allowed := true } := by
  have hres : evaluate text mode = evaluate text mode := rfl
  conv at hres => lhs; unfold evaluate
  dsimp only at hres
  repeat' split at hres
  · exact Or.inl hres.symm
  · exact Or.inr (Or.inl hres.symm)
  · exact Or.inr (Or.inr (Or.inl hres.symm))
  · exact Or.inr (Or.inr (Or.inr hres.symm))

/-- None of the generation collaborator's metadata dictionaries carries
a "type" key, so the llm tag survives the merge. -/
lemma dlookup_llm_meta (env : Env) :
    dlookup ([("type", "llm")] ++ (generate env).2) "type" = some "llm" := by
  unfold generate
  rcases h : env.apiKey with _ | k
  · simp [dlookup]
  · by_cases hk : k = ""
    · simp [hk, dlookup]
    · rcases hnet : env.netResp with _ | (_ | t)
      · simp [hk, dlookup]
      · simp [hk, dlookup]
      · by_cases ht : t = "" <;> simp [hk, ht, dlookup]

/-! ## Claim C9: the metadata type discriminator -/

/-- C9: whenever `Router.route` returns, the metadata carries a "type"
key valued in {command, safety, kb, kb_miss, llm}; the value is "llm"
exactly when the generation collaborator was invoked (once), and
"command" exactly when the Command Interpreter handled the turn — in
particular the metadata merge in the generation branch never overrides
type=llm. -/
theorem c9_metadata_type_discriminator (env : Env) (st : AppState) (kb : KB)
    (input : String) (r : RouteResult) (st' : AppState) (kb' : KB) (n : Nat)
    (hok : route env st kb input = .ok (r, st', kb', n)) :
    ∃ t, dlookup r.metadata "type" = some t ∧
      t ∈ (["command", "safety", "kb", "kb_miss", "llm"] : List String) ∧
      (t = "llm" ↔ n = 1) ∧ (t ≠ "llm" → n = 0) ∧
      (t = "command" ↔
        ∃ cr st1 kb1, parse env kb input st = .ok (cr, st1, kb1) ∧
          cr.handled = true) := by
  unfold route at hok
  rcases parse_shape env kb input st rfl with hp | ⟨e, hp⟩ | ⟨out, meta, st1, kb1, hp, hdl, _⟩
  · -- pass-through: the later stages produced the result
    rw [hp] at hok
    have hnotcmd : ¬∃ cr st1 kb1,
        parse env kb input st = .ok (cr, st1, kb1) ∧ cr.handled = true := by
      rintro ⟨cr, st1, kb1, hpc, hh⟩
      rw [hp] at hpc
      cases hpc
      exact absurd hh (by simp [notHandled])
    dsimp only [notHandled] at hok
    rw [if_neg (by simp)] at hok
    by_cases hall : (evaluate input st.mode).allowed = false
    · -- safety block
      rw [if_pos hall] at hok
      rcases evaluate_cases input st.mode with he | he | he | he <;>
        rw [he] at hok hall
      · simp only [disallowedResult, Except.ok.injEq, Prod.mk.injEq] at hok
        obtain ⟨hr, _, _, hn⟩ := hok
        refine ⟨"safety", ?_, by simp, by simp [hn.symm], fun _ => hn.symm, ?_⟩
        · rw [← hr]; simp [dlookup]
        · simp only [String.reduceEq, false_iff]
          exact hnotcmd
      · simp only [crisisResult, Except.ok.injEq, Prod.mk.injEq] at hok
        obtain ⟨hr, _, _, hn⟩ := hok
        refine ⟨"safety", ?_, by simp, by simp [hn.symm], fun _ => hn.symm, ?_⟩
        · rw [← hr]; simp [dlookup]
        · simp only [String.reduceEq, false_iff]
          exact hnotcmd
      · simp [healthResult] at hall
      · simp at hall
    · -- knowledge or generation
      rw [if_neg hall] at hok
      have main : routeFallback env st kb input (evaluate input st.mode)
            = (r, st', kb', n) →
          ∃ t, dlookup r.metadata "type" = some t ∧
            t ∈ (["command", "safety", "kb", "kb_miss", "llm"] : List String) ∧
            (t = "llm" ↔ n = 1) ∧ (t ≠ "llm" → n = 0) ∧
            (t = "command" ↔
              ∃ cr st1 kb1, parse env kb input st = .ok (cr, st1, kb1) ∧
                cr.handled = true) := by
        intro hok2
        unfold routeFallback at hok2
        by_cases hisl : isIslamicQuery input = true
        · rw [if_pos hisl] at hok2
          simp only [Prod.mk.injEq] at hok2
          obtain ⟨hr, _, _, hn⟩ := hok2
          refine ⟨"kb_miss", ?_, by simp, by simp [hn.symm], fun _ => hn.symm, ?_⟩
          · rw [← hr]; simp [dlookup]
          · simp only [String.reduceEq, false_iff]
            exact hnotcmd
        · rw [if_neg hisl] at hok2
          dsimp only at hok2
          simp only [Prod.mk.injEq] at hok2
          obtain ⟨hr, _, _, hn⟩ := hok2
          refine ⟨"llm", ?_, by simp, by simp [hn.symm], by simp [hn.symm], ?_⟩
          · rw [← hr]
            exact dlookup_llm_meta env
          · simp only [String.reduceEq, false_iff]
            exact hnotcmd
      rcases hs : search kb.cards input 5 with _ | ⟨h1, t1⟩
      · rw [hs] at hok
        dsimp only at hok
        exact main (Except.ok.inj hok)
      · rw [hs] at hok
        dsimp only at hok
        by_cases hth : st.settings.kbStrongMatchThreshold ≤ (firstMaxHit h1 t1).score
        · rw [if_pos hth] at hok
          simp only [Except.ok.injEq, Prod.mk.injEq] at hok
          obtain ⟨hr, _, _, hn⟩ := hok
          refine ⟨"kb", ?_, by simp, by simp [hn.symm], fun _ => hn.symm, ?_⟩
          · rw [← hr]; simp [dlookup]
          · simp only [String.reduceEq, false_iff]
            exact hnotcmd
        · rw [if_neg hth] at hok
          exact main (Except.ok.inj hok)
  · rw [hp] at hok
    exact absurd hok (by simp)
  · -- handled command
    rw [hp] at hok
    dsimp only [cmdOk] at hok
    rw [if_pos rfl] at hok
    simp only [Except.ok.injEq, Prod.mk.injEq] at hok
    obtain ⟨hr, _, _, hn⟩ := hok
    refine ⟨"command", ?_, by simp, by simp [hn.symm], fun _ => hn.symm, ?_⟩
    · rw [← hr]
      simpa using hdl
    · simp only [true_iff]
      exact ⟨cmdOk out meta, st1, kb1, hp, rfl⟩

/-- Witness for C9: the discriminator extracted from the concrete
"status" turn. -/
theorem c9_metadata_type_discriminator_witness :
    ∃ t, dlookup
        [("type", "command"), ("name", "status"), ("success", "true")]
        "type" = some t ∧
      t ∈ (["command", "safety", "kb", "kb_miss", "llm"] : List String) := by
  obtain ⟨t, h1, h2, _, _, _⟩ :=
    c9_metadata_type_discriminator failingFS {} {} "status"
      ⟨statusOutput {}, [("type", "command"), ("name", "status"),
        ("success", "true")]⟩ {} {} 0 rfl
  exact ⟨t, h1, h2⟩

/-! ## Claim C10: only the generation branch touches the history -/

lemma remember_twice_suffix (N : Nat) (h : List String) (u a : String)
    (hN : 2 ≤ N) :
    ∃ p, rememberList N (rememberList N h u) a = p ++ [u, a] := by
  rw [rememberList_eq_drop, rememberList_eq_drop]
  have hk1 : h.length + 1 - N ≤ (h ++ [u]).length := by simp
  rw [← List.drop_append_of_le_length hk1]
  rw [List.drop_drop]
  rw [show (h ++ [u]) ++ [a] = h ++ [u, a] by simp]
  refine ⟨h.drop ((List.drop (h.length + 1 - N) (h ++ [u])).length + 1 - N
    + (h.length + 1 - N)), ?_⟩
  rw [List.drop_append_of_le_length (by
    simp only [List.length_drop, List.length_append, List.length_cons,
      List.length_nil]
    omega)]
  congr 2
  omega

/-- C10: the session history is mutated only by the generation-fallback
branch.  A turn whose metadata type is not "llm" (command, safety block,
knowledge reply, knowledge miss) leaves `short_term_history` unchanged;
a turn whose type is "llm" remembers exactly the user query and then the
final response text — so with capacity at least 2 the history ends with
those two entries. -/
theorem c10_history_only_llm_branch (env : Env) (st : AppState) (kb : KB)
    (input : String) (r : RouteResult) (st' : AppState) (kb' : KB) (n : Nat)
    (hok : route env st kb input = .ok (r, st', kb', n)) :
    (dlookup r.metadata "type" ≠ some "llm" →
      st'.short_term_history = st.short_term_history) ∧
    (dlookup r.metadata "type" = some "llm" →
      st'.short_term_history
        = rememberList st.settings.maxShortTermMemory
            (rememberList st.settings.maxShortTermMemory
              st.short_term_history ("user:" ++ input))
            ("assistant:" ++ r.text) ∧
      (2 ≤ st.settings.maxShortTermMemory →
        ∃ p, st'.short_term_history
          = p ++ ["user:" ++ input, "assistant:" ++ r.text])) := by
  unfold route at hok
  rcases parse_shape env kb input st rfl with hp | ⟨e, hp⟩ | ⟨out, meta, st1, kb1, hp, hdl, hh1⟩
  · rw [hp] at hok
    dsimp only [notHandled] at hok
    rw [if_neg (by simp)] at hok
    by_cases hall : (evaluate input st.mode).allowed = false
    · rw [if_pos hall] at hok
      simp only [Except.ok.injEq, Prod.mk.injEq] at hok
      obtain ⟨hr, hst, _, _⟩ := hok
      refine ⟨fun _ => by rw [← hst], fun hllm => absurd hllm ?_⟩
      rw [← hr]
      rcases evaluate_cases input st.mode with he | he | he | he <;> rw [he] at hall ⊢
      · simp [disallowedResult, dlookup]
      · simp [crisisResult, dlookup]
      · simp [healthResult] at hall
      · simp at hall
    · rw [if_neg hall] at hok
      have main : routeFallback env st kb input (evaluate input st.mode)
            = (r, st', kb', n) →
          (dlookup r.metadata "type" ≠ some "llm" →
            st'.short_term_history = st.short_term_history) ∧
          (dlookup r.metadata "type" = some "llm" →
            st'.short_term_history
              = rememberList st.settings.maxShortTermMemory
                  (rememberList st.settings.maxShortTermMemory
                    st.short_term_history ("user:" ++ input))
                  ("assistant:" ++ r.text) ∧
            (2 ≤ st.settings.maxShortTermMemory →
              ∃ p, st'.short_term_history
                = p ++ ["user:" ++ input, "assistant:" ++ r.text])) := by
        intro hok2
        unfold routeFallback at hok2
        by_cases hisl : isIslamicQuery input = true
        · rw [if_pos hisl] at hok2
          simp only [Prod.mk.injEq] at hok2
          obtain ⟨hr, hst, _, _⟩ := hok2
          refine ⟨fun _ => by rw [← hst], fun hllm => absurd hllm ?_⟩
          rw [← hr]
          simp [dlookup]
        · rw [if_neg hisl] at hok2
          dsimp only [AppState.remember] at hok2
          simp only [Prod.mk.injEq] at hok2
          obtain ⟨hr, hst, _, _⟩ := hok2
          have hmeta : dlookup r.metadata "type" = some "llm" := by
            rw [← hr]
            exact dlookup_llm_meta env
          refine ⟨fun hne => absurd hmeta hne, fun _ => ?_⟩
          have htext : r.text
              = (if (evaluate input st.mode).message ≠ "" then
                  pyStrip ((evaluate input st.mode).message ++ " "
                    ++ (generate env).1)
                else (generate env).1) := by
            rw [← hr]
          have hhist : st'.short_term_history
              = rememberList st.settings.maxShortTermMemory
                  (rememberList st.settings.maxShortTermMemory
                    st.short_term_history ("user:" ++ input))
                  ("assistant:" ++ r.text) := by
            rw [← hst, htext]
          exact ⟨hhist, fun hN => by
            rw [hhist]
            exact remember_twice_suffix _ _ _ _ hN⟩
      rcases hs : search kb.cards input 5 with _ | ⟨h1, t1⟩
      · rw [hs] at hok
        dsimp only at hok
        exact main (Except.ok.inj hok)
      · rw [hs] at hok
        dsimp only at hok
        by_cases hth : st.settings.kbStrongMatchThreshold ≤ (firstMaxHit h1 t1).score
        · rw [if_pos hth] at hok
          simp only [Except.ok.injEq, Prod.mk.injEq] at hok
          obtain ⟨hr, hst, _, _⟩ := hok
          refine ⟨fun _ => by rw [← hst], fun hllm => absurd hllm ?_⟩
          rw [← hr]
          simp [dlookup]
        · rw [if_neg hth] at hok
          exact main (Except.ok.inj hok)
  · rw [hp] at hok
    exact absurd hok (by simp)
  · rw [hp] at hok
    dsimp only [cmdOk] at hok
    rw [if_pos rfl] at hok
    simp only [Except.ok.injEq, Prod.mk.injEq] at hok
    obtain ⟨hr, hst, _, _⟩ := hok
    refine ⟨fun _ => by rw [← hst]; exact hh1, fun hllm => absurd hllm ?_⟩
    rw [← hr]
    intro hcontra
    simp only [Option.getD_some] at hcontra
    rw [hdl] at hcontra
    simp at hcontra

/-- An environment with no generation credential and a working
filesystem. -/
def noKeyEnv : Env :=
  { fsOk := fun _ => true, addInput := none, apiKey := none,
    netResp := none, now := "t" }

/-- Witness for C10: an unmatched query on an empty store reaches the
generation fallback, and the history ends with the user query followed
by the offline response. -/
theorem c10_history_only_llm_branch_witness :
    ∃ p, (["user:Tell me something useful",
        "assistant:Offline fallback: no cloud API key configured. Please set OPENAI_API_KEY to enable cloud responses."] : List String)
      = p ++ ["user:" ++ "Tell me something useful",
        "assistant:" ++ "Offline fallback: no cloud API key configured. Please set OPENAI_API_KEY to enable cloud responses."] := by
  have h := (c10_history_only_llm_branch noKeyEnv {} {} "Tell me something useful"
      ⟨"Offline fallback: no cloud API key configured. Please set OPENAI_API_KEY to enable cloud responses.",
        [("type", "llm"), ("provider", "offline"), ("reason", "missing_api_key")]⟩
      { short_term_history := ["user:Tell me something useful",
          "assistant:Offline fallback: no cloud API key configured. Please set OPENAI_API_KEY to enable cloud responses."] }
      {} 1 rfl).2 (by simp [dlookup])
  exact h.2 (by decide)

end Raahib
